import Mathlib

/-!
Verification of the chat-log backend (`src/main.py`) against its
natural-language specification.

Modelling conventions:
* Python strings are lists of Unicode code points (`List Nat`); `strLit`
  turns a Lean string literal into that form.
* `str.strip()` is `pyStrip` (ASCII whitespace; the service's inputs and
  the spec's keywords are ASCII).
* `str.lower()` is `pyLower` (ASCII case folding, which is all the
  keyword tests of the code exercise).
* `needle in haystack` is `strContains haystack needle`.
* The document store (`database.py`, not part of the sources) is modelled
  from the spec as an in-memory store with a tick counter that assigns
  fresh identifiers and creation timestamps.
-/

/-- Code points of a Lean string literal, the model of a Python `str`. -/
def strLit (s : String) : List Nat := s.toList.map Char.toNat

/-- ASCII whitespace, the characters `str.strip()` removes on ASCII text. -/
def isSpaceNat (c : Nat) : Bool :=
  c == 32 || c == 9 || c == 10 || c == 13 || c == 11 || c == 12

/-- ASCII case folding, the model of `str.lower()` on one code point. -/
def toLowerNat (c : Nat) : Nat := if 65 ≤ c ∧ c ≤ 90 then c + 32 else c

/-- `s.strip()`: drop whitespace from both ends. -/
def pyStrip (s : List Nat) : List Nat :=
  ((s.dropWhile isSpaceNat).reverse.dropWhile isSpaceNat).reverse

/-- `s.lower()`. -/
def pyLower (s : List Nat) : List Nat := s.map toLowerNat

/-- Does `h` start with `n`? (`strStarts n h` = `h.startswith(n)`). -/
def strStarts : List Nat → List Nat → Bool
  | [], _ => true
  | _ :: _, [] => false
  | a :: n, b :: h => a == b && strStarts n h

/-- Python's `n in h` substring test: `strContains h n`. -/
def strContains : List Nat → List Nat → Bool
  | [], n => strStarts n []
  | b :: h, n => strStarts n (b :: h) || strContains h n

/-- Python `l or default` for a string: empty is falsy. -/
def pyOrList (l d : List Nat) : List Nat := if l = [] then d else l

/-- Python `x or default` for an optional string: `None` and `""` are falsy. -/
def pyOrOpt (o : Option (List Nat)) (d : List Nat) : List Nat :=
  match o with
  | none => d
  | some s => if s = [] then d else s

/-- Fixed prompt-for-input reply (empty input). -/
def replyEmpty : List Nat := strLit ("I'm here! Ask me anything.")

/-- Fixed joke reply. -/
def replyJoke : List Nat :=
  strLit ("Here's one: Why do programmers prefer dark mode? Because light attracts bugs.")

/-- Fixed greeting reply. -/
def replyGreeting : List Nat :=
  strLit ("Hello! I'm your always-on AI. How can I help today?")

/-- Fixed generic-help reply. -/
def replyHelp : List Nat :=
  strLit ("Tell me what you're trying to do, and I'll break it into clear steps.")

/-- Text before the echoed input in the tell-me-more template. -/
def echoPre : List Nat := strLit ("You said: '")

/-- Text after the echoed input in the tell-me-more template. -/
def echoPost : List Nat := strLit ("'. Tell me more so I can give a better answer.")

/-- Text before the quoted input in the long-answer template. -/
def longPre : List Nat :=
  strLit ("Here's a quick, helpful answer based on what you asked: ")

/-- Closing suggestion of the long-answer template. -/
def longPost : List Nat :=
  strLit ("\n\nI can also provide examples, step-by-step guides, or summaries if you like.")

/-- Embedding of `generate_assistant_reply` from `src/main.py`. -/
def generate_assistant_reply (user_text : List Nat) : List Nat :=
  let t := pyStrip user_text
  if t = [] then replyEmpty
  else
    let lower := pyLower t
    if strContains lower (strLit ("joke")) then replyJoke
    else if strContains lower (strLit ("hello")) || strContains lower (strLit ("hi")) then
      replyGreeting
    else if strContains lower (strLit ("help")) then replyHelp
    else if t.length < 12 then echoPre ++ t ++ echoPost
    else longPre ++ t.take 300 ++ longPost

/-- `s` contains `kw` case-insensitively, the claim's reading applied to the
raw input `s`. -/
def containsCI (s kw : List Nat) : Bool := strContains (pyLower s) kw

/-- The reply policy exactly as claim C1 words it: branch 5 echoes the raw
input `s` verbatim inside the tell-me-more template. -/
def replyPolicyClaim (s : List Nat) : List Nat :=
  if pyStrip s = [] then replyEmpty
  else if containsCI s (strLit ("joke")) then replyJoke
  else if containsCI s (strLit ("hello")) || containsCI s (strLit ("hi")) then replyGreeting
  else if containsCI s (strLit ("help")) then replyHelp
  else if (pyStrip s).length < 12 then echoPre ++ s ++ echoPost
  else longPre ++ (pyStrip s).take 300 ++ longPost

/-- Claim C1 amended: branch 5 echoes the trimmed input, which is what the
code does. All other branches are the claim's. -/
def replyPolicyAmended (s : List Nat) : List Nat :=
  if pyStrip s = [] then replyEmpty
  else if containsCI s (strLit ("joke")) then replyJoke
  else if containsCI s (strLit ("hello")) || containsCI s (strLit ("hi")) then replyGreeting
  else if containsCI s (strLit ("help")) then replyHelp
  else if (pyStrip s).length < 12 then echoPre ++ pyStrip s ++ echoPost
  else longPre ++ (pyStrip s).take 300 ++ longPost

lemma boolEqOfIff {a b : Bool} (h : a = true ↔ b = true) : a = b := by
  cases a <;> cases b <;> simp_all

lemma strStarts_iff (n h : List Nat) : strStarts n h = true ↔ ∃ v, h = n ++ v := by
  induction n generalizing h with
  | nil => simp [strStarts]
  | cons a n ih =>
    cases h with
    | nil => simp [strStarts]
    | cons b h' =>
      simp only [strStarts, Bool.and_eq_true, beq_iff_eq, ih]
      constructor
      · rintro ⟨rfl, v, rfl⟩
        exact ⟨v, rfl⟩
      · rintro ⟨v, hv⟩
        cases hv
        exact ⟨rfl, v, rfl⟩

lemma strContains_iff (h n : List Nat) :
    strContains h n = true ↔ ∃ u v, h = u ++ n ++ v := by
  induction h with
  | nil =>
    simp only [strContains, strStarts_iff]
    constructor
    · rintro ⟨v, hv⟩
      exact ⟨[], v, hv⟩
    · rintro ⟨u, v, huv⟩
      have h := huv.symm
      simp only [List.append_eq_nil] at h
      exact ⟨[], by simp [h.1.2]⟩
  | cons b h' ih =>
    simp only [strContains, Bool.or_eq_true, strStarts_iff, ih]
    constructor
    · rintro (⟨v, hv⟩ | ⟨u, v, huv⟩)
      · exact ⟨[], v, by simp [hv]⟩
      · exact ⟨b :: u, v, by simp [huv]⟩
    · rintro ⟨u, v, huv⟩
      cases u with
      | nil => exact Or.inl ⟨v, by simpa using huv⟩
      | cons x u' =>
        right
        simp only [List.cons_append, List.cons.injEq] at huv
        exact ⟨u', v, huv.2⟩

lemma strContains_mono (m s n : List Nat) (hsub : ∃ u v, s = u ++ m ++ v)
    (h : strContains m n = true) : strContains s n = true := by
  rcases hsub with ⟨u, v, rfl⟩
  rcases (strContains_iff m n).mp h with ⟨a, c, rfl⟩
  exact (strContains_iff _ n).mpr ⟨u ++ a, c ++ v, by simp [List.append_assoc]⟩

lemma dropWhile_decomp (p : Nat → Bool) (l : List Nat) :
    ∃ u, l = u ++ l.dropWhile p := by
  induction l with
  | nil => exact ⟨[], rfl⟩
  | cons a l ih =>
    by_cases h : p a = true
    · rcases ih with ⟨u, hu⟩
      exact ⟨a :: u, by simp [List.dropWhile, h, ← hu]⟩
    · exact ⟨[], by simp [List.dropWhile, h]⟩

lemma pyStrip_decomp (s : List Nat) : ∃ u v, s = u ++ pyStrip s ++ v := by
  rcases dropWhile_decomp isSpaceNat s with ⟨u, hu⟩
  rcases dropWhile_decomp isSpaceNat (s.dropWhile isSpaceNat).reverse with ⟨w, hw⟩
  refine ⟨u, w.reverse, ?_⟩
  have h2 : s.dropWhile isSpaceNat = pyStrip s ++ w.reverse := by
    have := congrArg List.reverse hw
    simpa [pyStrip, List.reverse_append] using this
  conv_lhs => rw [hu, h2]
  simp [List.append_assoc]

lemma strContains_dropWhile (p : Nat → Bool) (kw l : List Nat) (hne : kw ≠ [])
    (hk : ∀ c ∈ kw, p c = false) (h : strContains l kw = true) :
    strContains (l.dropWhile p) kw = true := by
  induction l with
  | nil => simpa [strContains] using h
  | cons b l' ih =>
    by_cases hb : p b = true
    · rw [List.dropWhile_cons_of_pos hb]
      apply ih
      rcases (Bool.or_eq_true _ _).mp (by simpa [strContains] using h) with hst | hc
      · exfalso
        cases kw with
        | nil => exact hne rfl
        | cons k0 kw' =>
          rcases (strStarts_iff _ _).mp hst with ⟨v, hv⟩
          have hk0 : b = k0 := by
            have := congrArg (fun x => x.head?) hv
            simpa using this
          have hfalse := hk k0 (by simp)
          rw [hk0] at hb
          simp [hb] at hfalse
      · exact hc
    · rw [List.dropWhile_cons_of_neg hb]
      exact h

lemma strContains_reverse (l k : List Nat) :
    strContains l.reverse k.reverse = strContains l k := by
  apply boolEqOfIff
  rw [strContains_iff, strContains_iff]
  constructor
  · rintro ⟨u, v, huv⟩
    refine ⟨v.reverse, u.reverse, ?_⟩
    have := congrArg List.reverse huv
    simpa [List.reverse_append, List.append_assoc] using this
  · rintro ⟨u, v, rfl⟩
    exact ⟨v.reverse, u.reverse, by simp [List.reverse_append, List.append_assoc]⟩

lemma strContains_pyStrip (s kw : List Nat) (hne : kw ≠ [])
    (hk : ∀ c ∈ kw, isSpaceNat c = false) :
    strContains (pyStrip s) kw = strContains s kw := by
  apply boolEqOfIff
  constructor
  · intro h
    exact strContains_mono (pyStrip s) s kw (pyStrip_decomp s) h
  · intro h
    have h1 : strContains (s.dropWhile isSpaceNat) kw = true :=
      strContains_dropWhile isSpaceNat kw s hne hk h
    have h2 : strContains (s.dropWhile isSpaceNat).reverse kw.reverse = true := by
      rw [strContains_reverse]
      exact h1
    have h3 : strContains ((s.dropWhile isSpaceNat).reverse.dropWhile isSpaceNat)
        kw.reverse = true := by
      apply strContains_dropWhile isSpaceNat kw.reverse _ _ _ h2
      · simpa using hne
      · intro c hc
        exact hk c (List.mem_reverse.mp hc)
    have h4 := strContains_reverse
      ((s.dropWhile isSpaceNat).reverse.dropWhile isSpaceNat).reverse kw
    rw [List.reverse_reverse] at h4
    rw [pyStrip]
    rw [← h4]
    exact h3

lemma isSpaceNat_toLowerNat (c : Nat) : isSpaceNat (toLowerNat c) = isSpaceNat c := by
  unfold toLowerNat
  split
  · rename_i h
    have h1 : isSpaceNat (c + 32) = false := by
      simp only [isSpaceNat, Bool.or_eq_false_iff, beq_eq_false_iff_ne, ne_eq]
      omega
    have h2 : isSpaceNat c = false := by
      simp only [isSpaceNat, Bool.or_eq_false_iff, beq_eq_false_iff_ne, ne_eq]
      omega
    rw [h1, h2]
  · rfl

lemma dropWhile_map_lower (l : List Nat) :
    (l.map toLowerNat).dropWhile isSpaceNat = (l.dropWhile isSpaceNat).map toLowerNat := by
  induction l with
  | nil => rfl
  | cons a l ih =>
    by_cases h : isSpaceNat a = true
    · have h' : isSpaceNat (toLowerNat a) = true := by rw [isSpaceNat_toLowerNat]; exact h
      simp [List.dropWhile_cons_of_pos h, List.dropWhile_cons_of_pos h', ih]
    · have h' : isSpaceNat (toLowerNat a) ≠ true := by
        rw [isSpaceNat_toLowerNat]; exact h
      simp [List.dropWhile_cons_of_neg h, List.dropWhile_cons_of_neg h']

lemma pyLower_pyStrip (s : List Nat) : pyLower (pyStrip s) = pyStrip (pyLower s) := by
  unfold pyStrip pyLower
  rw [List.map_reverse, ← dropWhile_map_lower, List.map_reverse, ← dropWhile_map_lower]

lemma containsCI_strip (s kw : List Nat) (hne : kw ≠ [])
    (hk : ∀ c ∈ kw, isSpaceNat c = false) :
    strContains (pyLower (pyStrip s)) kw = containsCI s kw := by
  rw [pyLower_pyStrip, containsCI]
  exact strContains_pyStrip (pyLower s) kw hne hk

/-- C1 (amended): for every input string `s`, `generate_assistant_reply`
applies the ordered first-match policy of the claim, with branch 5 echoing
the trimmed input (not the raw input) inside the tell-me-more template:
the reply always equals `replyPolicyAmended s`. -/
theorem c1_generate_reply_policy (s : List Nat) :
    generate_assistant_reply s = replyPolicyAmended s := by
  have hj := containsCI_strip s (strLit ("joke")) (by decide) (by decide)
  have hhe := containsCI_strip s (strLit ("hello")) (by decide) (by decide)
  have hhi := containsCI_strip s (strLit ("hi")) (by decide) (by decide)
  have hhp := containsCI_strip s (strLit ("help")) (by decide) (by decide)
  simp only [generate_assistant_reply, replyPolicyAmended, hj, hhe, hhi, hhp]

/-- The base64 alphabet: code point of digit `k` (`k < 64`). -/
def b64char (k : Nat) : Nat :=
  if k < 26 then 65 + k
  else if k < 52 then 71 + k
  else if k < 62 then k - 4
  else if k = 62 then 43
  else 47

/-- Value of a base64 alphabet character, `none` for a non-alphabet byte. -/
def b64val (c : Nat) : Option Nat :=
  if 65 ≤ c ∧ c ≤ 90 then some (c - 65)
  else if 97 ≤ c ∧ c ≤ 122 then some (c - 71)
  else if 48 ≤ c ∧ c ≤ 57 then some (c + 4)
  else if c = 43 then some 62
  else if c = 47 then some 63
  else none

/-- `base64.b64encode` over byte lists: 3-byte groups become 4 characters,
a final group of 1 or 2 bytes is padded with `=` (code point 61). -/
def b64encode : List Nat → List Nat
  | [] => []
  | [a] => [b64char (a / 4 % 64), b64char (a % 4 * 16), 61, 61]
  | [a, b] =>
    [b64char (a / 4 % 64), b64char ((a % 4 * 16 + b / 16) % 64), b64char (b % 16 * 4 % 64), 61]
  | a :: b :: c :: rest =>
    b64char (a / 4 % 64) :: b64char ((a % 4 * 16 + b / 16) % 64) ::
      b64char ((b % 16 * 4 + c / 64) % 64) :: b64char (c % 64) :: b64encode rest

/-- `base64.b64decode` over byte lists: strict 4-character groups with `=`
padding only at the very end; `none` models the decode error. -/
def b64decode : List Nat → Option (List Nat)
  | [] => some []
  | c1 :: c2 :: c3 :: c4 :: rest =>
    if c3 = 61 then
      if c4 = 61 ∧ rest = [] then
        match b64val c1, b64val c2 with
        | some x1, some x2 => some [x1 * 4 + x2 / 16]
        | _, _ => none
      else none
    else if c4 = 61 then
      if rest = [] then
        match b64val c1, b64val c2, b64val c3 with
        | some x1, some x2, some x3 => some [x1 * 4 + x2 / 16, x2 % 16 * 16 + x3 / 4]
        | _, _, _ => none
      else none
    else
      match b64val c1, b64val c2, b64val c3, b64val c4, b64decode rest with
      | some x1, some x2, some x3, some x4, some r =>
        some ([x1 * 4 + x2 / 16, x2 % 16 * 16 + x3 / 4, x3 % 4 * 64 + x4] ++ r)
      | _, _, _, _, _ => none
  | _ => none

lemma b64val_b64char : ∀ k, k < 64 → b64val (b64char k) = some k := by decide

lemma b64char_ne_pad : ∀ k, k < 64 → b64char k ≠ 61 := by decide

lemma b64_roundtrip (data : List Nat) (hd : ∀ x ∈ data, x < 256) :
    b64decode (b64encode data) = some data := by
  induction data using b64encode.induct with
  | case1 => rfl
  | case2 a =>
    have ha : a < 256 := hd a (by simp)
    have h1 : a / 4 % 64 < 64 := Nat.mod_lt _ (by omega)
    have h2 : a % 4 * 16 < 64 := by omega
    simp only [b64encode, b64decode, eq_self_iff_true, and_self, if_true,
      b64val_b64char _ h1, b64val_b64char _ h2,
      Option.some.injEq, List.cons.injEq, and_true]
    omega
  | case3 a b =>
    have ha : a < 256 := hd a (by simp)
    have hb : b < 256 := hd b (by simp)
    have h1 : a / 4 % 64 < 64 := Nat.mod_lt _ (by omega)
    have h2 : (a % 4 * 16 + b / 16) % 64 < 64 := Nat.mod_lt _ (by omega)
    have h3 : b % 16 * 4 % 64 < 64 := Nat.mod_lt _ (by omega)
    have hne : b64char (b % 16 * 4 % 64) ≠ 61 := b64char_ne_pad _ h3
    simp only [b64encode, b64decode, if_neg hne, eq_self_iff_true, and_self, if_true,
      b64val_b64char _ h1, b64val_b64char _ h2, b64val_b64char _ h3,
      Option.some.injEq, List.cons.injEq, and_true]
    refine ⟨by omega, by omega⟩
  | case4 a b c rest ih =>
    have ha : a < 256 := hd a (by simp)
    have hb : b < 256 := hd b (by simp)
    have hc : c < 256 := hd c (by simp)
    have hrest : ∀ x ∈ rest, x < 256 := fun x hx => hd x (by simp [hx])
    have h1 : a / 4 % 64 < 64 := Nat.mod_lt _ (by omega)
    have h2 : (a % 4 * 16 + b / 16) % 64 < 64 := Nat.mod_lt _ (by omega)
    have h3 : (b % 16 * 4 + c / 64) % 64 < 64 := Nat.mod_lt _ (by omega)
    have h4 : c % 64 < 64 := Nat.mod_lt _ (by omega)
    have hne3 : b64char ((b % 16 * 4 + c / 64) % 64) ≠ 61 := b64char_ne_pad _ h3
    have hne4 : b64char (c % 64) ≠ 61 := b64char_ne_pad _ h4
    simp only [b64encode, List.cons_append, List.nil_append, b64decode,
      if_neg hne3, if_neg hne4, b64val_b64char _ h1, b64val_b64char _ h2,
      b64val_b64char _ h3, b64val_b64char _ h4, ih hrest,
      Option.some.injEq, List.cons.injEq, and_true]
    refine ⟨by omega, by omega, by omega⟩

/-- Hex digit character for `k < 16` (lowercase, as `str(ObjectId)` prints). -/
def hexChar (k : Nat) : Nat := if k < 10 then 48 + k else 87 + k

/-- Is `c` a hex digit character? `ObjectId` accepts both cases. -/
def isHexDigitNat (c : Nat) : Bool :=
  (48 ≤ c && c ≤ 57) || (97 ≤ c && c ≤ 102) || (65 ≤ c && c ≤ 70)

/-- A syntactically valid store identifier: `ObjectId(s)` succeeds exactly on
24-character hex strings. -/
def isValidOid (s : List Nat) : Bool := s.length == 24 && s.all isHexDigitNat

/-- Modelled from the spec: the store-native identifier the Document Store
Adapter assigns to the `n`-th inserted record, in canonical string form
(24 hex characters). -/
def oidOfNat (n : Nat) : List Nat :=
  (List.range 24).map (fun i => hexChar (n / 16 ^ (23 - i) % 16))

lemma hexChar_isHexDigit : ∀ k, k < 16 → isHexDigitNat (hexChar k) = true := by decide

lemma isValidOid_oidOfNat (n : Nat) : isValidOid (oidOfNat n) = true := by
  unfold isValidOid oidOfNat
  rw [Bool.and_eq_true]
  constructor
  · simp
  · rw [List.all_eq_true]
    intro c hc
    rcases List.mem_map.mp hc with ⟨i, _, rfl⟩
    exact hexChar_isHexDigit _ (Nat.mod_lt _ (by omega))

/-- A stored timestamp value: either a datetime (modelled as a tick number)
or unparsable junk (a raw string, on which `.isoformat()` raises). -/
inductive TsVal where
  | dt : Nat → TsVal
  | raw : List Nat → TsVal
deriving DecidableEq

/-- Modelled from the spec: the textual ISO rendering of a datetime tick
(`datetime.isoformat()`); an injective textual rendering stands in for the
calendar form. -/
def isoformat (t : Nat) : List Nat := (Nat.toDigits 10 t).map Char.toNat

/-- `created_at` rendered for a message response: ISO text for a datetime,
`none` when the value is absent or `.isoformat()` fails (the code's
try/except producing null). -/
def tsRender : Option TsVal → Option (List Nat)
  | some (.dt t) => some (isoformat t)
  | _ => none

/-- Sort rank of a `created_at` value; on datetimes it is the creation time
(shifted by 2), which is all `list_messages` sorts in reachable states. -/
def tsNum : Option TsVal → Nat
  | none => 0
  | some (.raw _) => 1
  | some (.dt t) => t + 2

/-- A stored conversation record. -/
structure ConvRec where
  title : List Nat
  created_at : Option TsVal
deriving DecidableEq

/-- A stored message record. -/
structure MsgRec where
  conversation_id : List Nat
  role : List Nat
  content : List Nat
  attachments : List (List Nat)
  created_at : Option TsVal
deriving DecidableEq

/-- A stored attachment record. -/
structure AttRec where
  conversation_id : Option (List Nat)
  message_id : Option (List Nat)
  filename : Option (List Nat)
  content_type : Option (List Nat)
  size : Nat
  data_base64 : List Nat
  created_at : Option TsVal
deriving DecidableEq

/-- Modelled from the spec: the Document Store Adapter's state. Each
collection keeps its records in insertion order, keyed by identifier; `tick`
both generates fresh identifiers and serves as the store-assigned creation
timestamp, so later inserts carry later timestamps. -/
structure Store where
  conversations : List (List Nat × ConvRec)
  messages : List (List Nat × MsgRec)
  attachments : List (List Nat × AttRec)
  tick : Nat
deriving DecidableEq

/-- The store with nothing in it. -/
def emptyStore : Store := ⟨[], [], [], 0⟩

/-- Modelled from the spec: `create_document("conversation", ...)`. -/
def insertConversation (st : Store) (title : List Nat) : List Nat × Store :=
  let cid := oidOfNat st.tick
  (cid, { st with
    conversations := st.conversations ++ [(cid, ⟨title, some (.dt st.tick)⟩)],
    tick := st.tick + 1 })

/-- Modelled from the spec: `create_document("message", ...)`; the store
stamps the creation timestamp. -/
def insertMessage (st : Store) (conversation_id role content : List Nat)
    (attachments : List (List Nat)) : List Nat × Store :=
  let mid := oidOfNat st.tick
  (mid, { st with
    messages := st.messages ++
      [(mid, ⟨conversation_id, role, content, attachments, some (.dt st.tick)⟩)],
    tick := st.tick + 1 })

/-- Modelled from the spec: `create_document("attachment", ...)`. -/
def insertAttachment (st : Store) (rec : AttRec) : List Nat × Store :=
  let aid := oidOfNat st.tick
  (aid, { st with
    attachments := st.attachments ++ [(aid, { rec with created_at := some (.dt st.tick) })],
    tick := st.tick + 1 })

/-- The error taxonomy the route handlers surface (`HTTPException` status
codes 400, 404 and 500). -/
inductive Err where
  | validation
  | notFound
  | corrupt
deriving DecidableEq

/-- `ConversationResponse`. -/
structure ConvOut where
  id : List Nat
  title : List Nat
deriving DecidableEq

/-- `MessageResponse`. -/
structure MsgOut where
  id : List Nat
  conversation_id : List Nat
  role : List Nat
  content : List Nat
  attachments : List (List Nat)
  created_at : Option (List Nat)
deriving DecidableEq

/-- `ChatResponse`. -/
structure ChatOut where
  conversation_id : List Nat
  reply : MsgOut
deriving DecidableEq

/-- The upload route's response object. -/
structure UploadOut where
  id : List Nat
  filename : Option (List Nat)
  content_type : Option (List Nat)
  size : Nat
  download_url : List Nat
deriving DecidableEq

/-- The download route's response (payload, filename, content type). -/
structure DlOut where
  content : List Nat
  filename : List Nat
  content_type : List Nat
deriving DecidableEq

/-- Stable insertion into a list sorted by `le`: the new element goes before
the first element it compares `le` to, so elements with equal keys keep
their original order (Python's sorts are stable). -/
def sortIns (le : α → α → Bool) (a : α) : List α → List α
  | [] => [a]
  | b :: l => if le a b then a :: b :: l else b :: sortIns le a l

/-- Stable sort by `le`, the model of Python's `list.sort(key=...)`. -/
def sortBy (le : α → α → Bool) : List α → List α
  | [] => []
  | a :: l => sortIns le a (sortBy le l)

/-- Embedding of `create_conversation` (`POST /conversations`). -/
def create_conversation (st : Store) (title : Option (List Nat)) : ConvOut × Store :=
  let t := pyOrOpt title (strLit ("New Chat"))
  let r := insertConversation st t
  (⟨r.1, t⟩, r.2)

/-- Sort key of `list_conversations`: the result dicts hold only `id` and
`title`, so `x.get("created_at", "")` always returns the default `""`. -/
def convSortKey (_ : ConvOut) : List Nat := []

/-- Lexicographic `≤` on strings, Python's comparison for the sort keys of
`list_conversations` (all of which are `""`). -/
def strLe : List Nat → List Nat → Bool
  | [], _ => true
  | _ :: _, [] => false
  | a :: s, b :: t => decide (a < b) || (a == b && strLe s t)

/-- Embedding of `list_conversations` (`GET /conversations`): builds
id/title pairs, then sorts with `reverse=True` on a key that is always `""`
(the raw documents' `created_at` was dropped when the result dicts were
built). `reverse=True` on equal keys is modelled by the flipped stable
comparison. -/
def list_conversations (st : Store) : List ConvOut :=
  let result := st.conversations.map (fun p => (⟨p.1, p.2.title⟩ : ConvOut))
  sortBy (fun a b => strLe (convSortKey b) (convSortKey a)) result

/-- The messages of conversation `cid` in store order. -/
def msgsOf (st : Store) (cid : List Nat) : List (List Nat × MsgRec) :=
  st.messages.filter (fun p => p.2.conversation_id == cid)

/-- `list_messages`' ascending comparison on `created_at`. -/
def msgLe (a b : List Nat × MsgRec) : Bool :=
  decide (tsNum a.2.created_at ≤ tsNum b.2.created_at)

/-- One stored message rendered as a `MessageResponse`. -/
def renderMessage (p : List Nat × MsgRec) : MsgOut :=
  ⟨p.1, p.2.conversation_id, p.2.role, p.2.content, p.2.attachments,
    tsRender p.2.created_at⟩

/-- Embedding of `list_messages` (`GET /messages`). -/
def list_messages (st : Store) (conversation_id : List Nat) :
    Except Err (List MsgOut) :=
  if isValidOid conversation_id then
    .ok ((sortBy msgLe (msgsOf st conversation_id)).map renderMessage)
  else .error .validation

/-- Embedding of `chat` (`POST /chat`). An error leaves the returned store
as it was at the point the exception was raised. -/
def chat (st : Store) (message : List Nat) (conversation_id : Option (List Nat))
    (attachments : Option (List (List Nat))) : Except Err ChatOut × Store :=
  let user_text := pyStrip message
  if user_text = [] then (.error .validation, st)
  else
    let step1 : List Nat × Store :=
      match conversation_id with
      | none => insertConversation st (pyOrList (user_text.take 40) (strLit ("New Chat")))
      | some cid =>
        if cid = [] then
          insertConversation st (pyOrList (user_text.take 40) (strLit ("New Chat")))
        else (cid, st)
    let conv_id := step1.1
    let st1 := step1.2
    if isValidOid conv_id then
      let step2 := insertMessage st1 conv_id (strLit ("user")) user_text
        (attachments.getD [])
      let reply_text := generate_assistant_reply user_text
      let step3 := insertMessage step2.2 conv_id (strLit ("assistant")) reply_text []
      (.ok ⟨conv_id, ⟨step3.1, conv_id, strLit ("assistant"), reply_text, [], none⟩⟩,
        step3.2)
    else (.error .validation, st1)

/-- Does an optional identifier form field fail `ObjectId` validation? Python
truthiness: `None` and `""` skip the check entirely. -/
def badOptId (o : Option (List Nat)) : Bool :=
  match o with
  | some s => !(s == []) && !(isValidOid s)
  | none => false

/-- The identifier actually stored for an optional form field: `None` stays
`None`, `""` is falsy and also stays `None`. -/
def normOptId (o : Option (List Nat)) : Option (List Nat) :=
  match o with
  | some s => if s = [] then none else some s
  | none => none

/-- Embedding of `upload_attachment` (`POST /attachments`). -/
def upload_attachment (st : Store) (data : List Nat)
    (filename content_type : Option (List Nat))
    (conversation_id message_id : Option (List Nat)) : Except Err UploadOut × Store :=
  if badOptId conversation_id then (.error .validation, st)
  else if badOptId message_id then (.error .validation, st)
  else
    let b64 := b64encode data
    let r := insertAttachment st
      ⟨normOptId conversation_id, normOptId message_id, filename, content_type,
        data.length, b64, none⟩
    (.ok ⟨r.1, filename, content_type, data.length, strLit ("/attachments/") ++ r.1⟩, r.2)

/-- Embedding of `download_attachment` (`GET /attachments/{id}`). -/
def download_attachment (st : Store) (attachment_id : List Nat) : Except Err DlOut :=
  if isValidOid attachment_id then
    match st.attachments.filter (fun p => p.1 == attachment_id) with
    | [] => .error .notFound
    | a :: _ =>
      match b64decode a.2.data_base64 with
      | none => .error .corrupt
      | some raw =>
        .ok ⟨raw, pyOrOpt a.2.filename (strLit ("download")),
          pyOrOpt a.2.content_type (strLit ("application/octet-stream"))⟩
  else .error .validation

lemma sortIns_perm (le : α → α → Bool) (a : α) (l : List α) :
    (sortIns le a l).Perm (a :: l) := by
  induction l with
  | nil => exact List.Perm.refl _
  | cons b l ih =>
    by_cases h : le a b = true
    · rw [sortIns, if_pos h]
    · rw [sortIns, if_neg h]
      exact (ih.cons b).trans (List.Perm.swap a b l)

lemma sortBy_perm (le : α → α → Bool) (l : List α) : (sortBy le l).Perm l := by
  induction l with
  | nil => exact List.Perm.refl _
  | cons a l ih => exact (sortIns_perm le a (sortBy le l)).trans (ih.cons a)

lemma sortIns_pairwise (le : α → α → Bool)
    (htot : ∀ x y, le x y = false → le y x = true)
    (htr : ∀ x y z, le x y = true → le y z = true → le x z = true)
    (a : α) (l : List α) (hl : l.Pairwise (fun x y => le x y = true)) :
    (sortIns le a l).Pairwise (fun x y => le x y = true) := by
  induction l with
  | nil => simp [sortIns]
  | cons b l ih =>
    rcases List.pairwise_cons.mp hl with ⟨hb, hl'⟩
    by_cases h : le a b = true
    · rw [sortIns, if_pos h]
      refine List.pairwise_cons.mpr ⟨?_, hl⟩
      intro x hx
      rcases List.mem_cons.mp hx with rfl | hx
      · exact h
      · exact htr a b x h (hb x hx)
    · rw [sortIns, if_neg h]
      refine List.pairwise_cons.mpr ⟨?_, ih hl'⟩
      intro x hx
      have hmem := (sortIns_perm le a l).mem_iff.mp hx
      rcases List.mem_cons.mp hmem with hxa | hxl
      · rw [hxa]
        exact htot a b (by simpa using h)
      · exact hb x hxl

lemma sortBy_pairwise (le : α → α → Bool)
    (htot : ∀ x y, le x y = false → le y x = true)
    (htr : ∀ x y z, le x y = true → le y z = true → le x z = true)
    (l : List α) : (sortBy le l).Pairwise (fun x y => le x y = true) := by
  induction l with
  | nil => simp [sortBy]
  | cons a l ih => exact sortIns_pairwise le htot htr a (sortBy le l) ih

lemma sortBy_const (le : α → α → Bool) (h : ∀ x y, le x y = true) (l : List α) :
    sortBy le l = l := by
  induction l with
  | nil => rfl
  | cons a l ih =>
    rw [sortBy, ih]
    cases l with
    | nil => rfl
    | cons b l' => rw [sortIns, if_pos (h a b)]

lemma chat_empty_eq (st : Store) (message : List Nat) (cid : Option (List Nat))
    (atts : Option (List (List Nat))) (h : pyStrip message = []) :
    chat st message cid atts = (.error .validation, st) := by
  simp [chat, h]

lemma chat_new_conv_eq (st : Store) (text : List Nat)
    (atts : Option (List (List Nat))) (h : pyStrip text ≠ []) :
    chat st text none atts =
      (.ok ⟨oidOfNat st.tick,
        ⟨oidOfNat (st.tick + 2), oidOfNat st.tick, strLit ("assistant"),
          generate_assistant_reply (pyStrip text), [], none⟩⟩,
       { conversations := st.conversations ++
           [(oidOfNat st.tick, ⟨(pyStrip text).take 40, some (.dt st.tick)⟩)],
         messages := st.messages ++
           [(oidOfNat (st.tick + 1),
             ⟨oidOfNat st.tick, strLit ("user"), pyStrip text, atts.getD [],
               some (.dt (st.tick + 1))⟩),
            (oidOfNat (st.tick + 2),
             ⟨oidOfNat st.tick, strLit ("assistant"),
               generate_assistant_reply (pyStrip text), [],
               some (.dt (st.tick + 2))⟩)],
         attachments := st.attachments,
         tick := st.tick + 3 }) := by
  have htake : (pyStrip text).take 40 ≠ [] := by
    cases hts : pyStrip text with
    | nil => exact absurd hts h
    | cons x l => simp
  simp only [chat, if_neg h, pyOrList, if_neg htake, insertConversation, insertMessage,
    isValidOid_oidOfNat, if_true, List.append_assoc, List.singleton_append,
    List.cons_append, List.nil_append, Prod.mk.injEq, Store.mk.injEq]

lemma chat_some_empty_eq (st : Store) (text : List Nat)
    (atts : Option (List (List Nat))) :
    chat st text (some []) atts = chat st text none atts := by
  simp [chat]

lemma chat_some_eq (st : Store) (text cid : List Nat)
    (atts : Option (List (List Nat))) (h1 : pyStrip text ≠ [])
    (h2 : cid ≠ []) (h3 : isValidOid cid = true) :
    chat st text (some cid) atts =
      (.ok ⟨cid,
        ⟨oidOfNat (st.tick + 1), cid, strLit ("assistant"),
          generate_assistant_reply (pyStrip text), [], none⟩⟩,
       { conversations := st.conversations,
         messages := st.messages ++
           [(oidOfNat st.tick,
             ⟨cid, strLit ("user"), pyStrip text, atts.getD [],
               some (.dt st.tick)⟩),
            (oidOfNat (st.tick + 1),
             ⟨cid, strLit ("assistant"), generate_assistant_reply (pyStrip text), [],
               some (.dt (st.tick + 1))⟩)],
         attachments := st.attachments,
         tick := st.tick + 2 }) := by
  simp only [chat, if_neg h1, if_neg h2, insertMessage, h3, if_true,
    List.append_assoc, List.singleton_append, List.cons_append, List.nil_append,
    Prod.mk.injEq, Store.mk.injEq]

lemma chat_invalid_eq (st : Store) (text cid : List Nat)
    (atts : Option (List (List Nat))) (h1 : pyStrip text ≠ [])
    (h2 : cid ≠ []) (h3 : isValidOid cid = false) :
    chat st text (some cid) atts = (.error .validation, st) := by
  simp [chat, h1, h2, h3]

lemma create_conversation_messages (st : Store) (title : Option (List Nat)) :
    (create_conversation st title).2.messages = st.messages := rfl

lemma create_conversation_convs (st : Store) (title : Option (List Nat)) :
    (create_conversation st title).2.conversations =
      st.conversations ++
        [(oidOfNat st.tick, ⟨pyOrOpt title (strLit ("New Chat")), some (.dt st.tick)⟩)] := rfl

lemma upload_preserves (st : Store) (data : List Nat)
    (fn ct cido mido : Option (List Nat)) :
    (upload_attachment st data fn ct cido mido).2.messages = st.messages ∧
    (upload_attachment st data fn ct cido mido).2.conversations = st.conversations := by
  unfold upload_attachment
  by_cases h1 : badOptId cido = true
  · simp [h1]
  · by_cases h2 : badOptId mido = true
    · simp [h1, h2]
    · simp [h1, h2, insertAttachment]

/-- Store states reachable by the manager's operations when `chat` is called
either without a conversation identifier or with the identifier of an
existing conversation. -/
inductive Reach : Store → Prop where
  | init : Reach emptyStore
  | createConv (st : Store) (title : Option (List Nat)) (h : Reach st) :
      Reach (create_conversation st title).2
  | chatNone (st : Store) (text : List Nat) (atts : Option (List (List Nat)))
      (h : Reach st) : Reach (chat st text none atts).2
  | chatExisting (st : Store) (text cid : List Nat)
      (atts : Option (List (List Nat))) (h : Reach st)
      (hcid : ∃ r, (cid, r) ∈ st.conversations) :
      Reach (chat st text (some cid) atts).2
  | uploadStep (st : Store) (data : List Nat)
      (fn ct cido mido : Option (List Nat)) (h : Reach st) :
      Reach (upload_attachment st data fn ct cido mido).2

/-- Every stored message's conversation identifier names a stored
conversation. -/
def MsgInv (st : Store) : Prop :=
  ∀ p ∈ st.messages, ∃ q ∈ st.conversations, q.1 = p.2.conversation_id

lemma msgInv_extend (st st' : Store)
    (hmsg : ∀ p ∈ st'.messages,
      p ∈ st.messages ∨ ∃ q ∈ st'.conversations, q.1 = p.2.conversation_id)
    (hconv : ∀ q ∈ st.conversations, q ∈ st'.conversations)
    (hinv : MsgInv st) : MsgInv st' := by
  intro p hp
  rcases hmsg p hp with hold | hnew
  · rcases hinv p hold with ⟨q, hq, he⟩
    exact ⟨q, hconv q hq, he⟩
  · exact hnew

lemma msgInv_chat_none (st : Store) (text : List Nat)
    (atts : Option (List (List Nat))) (hinv : MsgInv st) :
    MsgInv (chat st text none atts).2 := by
  by_cases he : pyStrip text = []
  · rw [chat_empty_eq st text none atts he]
    exact hinv
  · rw [chat_new_conv_eq st text atts he]
    refine msgInv_extend st _ ?_ ?_ hinv
    · intro p hp
      rcases List.mem_append.mp hp with hold | hnew
      · exact Or.inl hold
      · right
        refine ⟨(oidOfNat st.tick, ⟨(pyStrip text).take 40, some (.dt st.tick)⟩),
          List.mem_append_right _ (by simp), ?_⟩
        rcases List.mem_cons.mp hnew with rfl | hnew'
        · rfl
        · rcases List.mem_cons.mp hnew' with rfl | h0
          · rfl
          · simp at h0
    · intro q hq
      exact List.mem_append_left _ hq

lemma msgInv_chat_existing (st : Store) (text cid : List Nat)
    (atts : Option (List (List Nat)))
    (hcid : ∃ r, (cid, r) ∈ st.conversations) (hinv : MsgInv st) :
    MsgInv (chat st text (some cid) atts).2 := by
  by_cases he : pyStrip text = []
  · rw [chat_empty_eq st text (some cid) atts he]
    exact hinv
  · by_cases hc : cid = []
    · rw [hc, chat_some_empty_eq]
      exact msgInv_chat_none st text atts hinv
    · by_cases hv : isValidOid cid = true
      · rw [chat_some_eq st text cid atts he hc hv]
        refine msgInv_extend st _ ?_ ?_ hinv
        · intro p hp
          rcases List.mem_append.mp hp with hold | hnew
          · exact Or.inl hold
          · right
            rcases hcid with ⟨r, hr⟩
            refine ⟨(cid, r), hr, ?_⟩
            rcases List.mem_cons.mp hnew with rfl | hnew'
            · rfl
            · rcases List.mem_cons.mp hnew' with rfl | h0
              · rfl
              · simp at h0
        · intro q hq
          exact hq
      · rw [chat_invalid_eq st text cid atts he hc (by simpa using hv)]
        exact hinv

/-- The store after a sequence of chat turns on conversation `cid`. -/
def chatTurns (st : Store) (cid : List Nat) (texts : List (List Nat)) : Store :=
  texts.foldl (fun s t => (chat s t (some cid) none).2) st

lemma isValidOid_ne_nil {cid : List Nat} (h : isValidOid cid = true) : cid ≠ [] := by
  intro he
  rw [he] at h
  simp [isValidOid] at h

lemma msgsOf_chat_some (st : Store) (t cid : List Nat) (h1 : pyStrip t ≠ [])
    (h3 : isValidOid cid = true) :
    (msgsOf (chat st t (some cid) none).2 cid).length = (msgsOf st cid).length + 2 := by
  rw [chat_some_eq st t cid none h1 (isValidOid_ne_nil h3) h3]
  unfold msgsOf
  rw [List.filter_append, List.length_append]
  simp

lemma chatTurns_count (texts : List (List Nat)) : ∀ (st : Store) (cid : List Nat),
    isValidOid cid = true → (∀ t ∈ texts, pyStrip t ≠ []) →
    (msgsOf (chatTurns st cid texts) cid).length =
      (msgsOf st cid).length + 2 * texts.length := by
  induction texts with
  | nil => intro st cid _ _; simp [chatTurns]
  | cons t ts ih =>
    intro st cid hv hts
    have hstep : chatTurns st cid (t :: ts) =
        chatTurns (chat st t (some cid) none).2 cid ts := rfl
    rw [hstep, ih _ cid hv (fun x hx => hts x (by simp [hx])),
      msgsOf_chat_some st t cid (hts t (by simp)) hv]
    simp
    omega

lemma msgLe_total (x y : List Nat × MsgRec) (h : msgLe x y = false) :
    msgLe y x = true := by
  simp only [msgLe, decide_eq_false_iff_not, not_le] at h
  simp only [msgLe, decide_eq_true_eq]
  omega

lemma msgLe_trans (x y z : List Nat × MsgRec) (hxy : msgLe x y = true)
    (hyz : msgLe y z = true) : msgLe x z = true := by
  simp only [msgLe, decide_eq_true_eq] at hxy hyz ⊢
  omega

lemma upload_then_download (st : Store) (data : List Nat)
    (fn ct : Option (List Nat)) (hd : ∀ x ∈ data, x < 256)
    (hfresh : ∀ p ∈ st.attachments, p.1 ≠ oidOfNat st.tick) :
    download_attachment (upload_attachment st data fn ct none none).2
        (oidOfNat st.tick) =
      .ok ⟨data, pyOrOpt fn (strLit ("download")),
        pyOrOpt ct (strLit ("application/octet-stream"))⟩ := by
  have hup : (upload_attachment st data fn ct none none).2.attachments =
      st.attachments ++
        [(oidOfNat st.tick,
          ⟨none, none, fn, ct, data.length, b64encode data, some (.dt st.tick)⟩)] := by
    simp [upload_attachment, badOptId, insertAttachment, normOptId]
  unfold download_attachment
  rw [hup, if_pos (isValidOid_oidOfNat st.tick), List.filter_append]
  have hnil : st.attachments.filter (fun p => p.1 == oidOfNat st.tick) = [] :=
    List.filter_eq_nil_iff.mpr (fun p hp => by simpa using hfresh p hp)
  rw [hnil]
  simp only [List.nil_append, List.filter_cons, beq_self_eq_true, if_true,
    List.filter_nil]
  rw [b64_roundtrip data hd]

/-- C1 counterexample: at input `" ok "` the code echoes the trimmed text
`"ok"` inside the tell-me-more template, while the claim's branch 5 says the
raw input is echoed verbatim; the two policies disagree there. -/
theorem c1_generate_reply_policy_cex :
    generate_assistant_reply (strLit (" ok ")) ≠ replyPolicyClaim (strLit (" ok ")) := by
  decide

/-- C2: for every text with non-empty trimmed form `t`, `chat` without a
conversation identifier persists exactly one new conversation titled with
the first 40 characters of `t`, then exactly two messages in order (the
user message with content `t` and the given attachments-or-empty, then the
assistant message with content `generate(t)` and no attachments), and
returns the new conversation identifier with the persisted assistant
message. -/
theorem c2_chat_new_conversation (st : Store) (text : List Nat)
    (atts : Option (List (List Nat))) (h : pyStrip text ≠ []) :
    chat st text none atts =
      (.ok ⟨oidOfNat st.tick,
        ⟨oidOfNat (st.tick + 2), oidOfNat st.tick, strLit ("assistant"),
          generate_assistant_reply (pyStrip text), [], none⟩⟩,
       { conversations := st.conversations ++
           [(oidOfNat st.tick, ⟨(pyStrip text).take 40, some (.dt st.tick)⟩)],
         messages := st.messages ++
           [(oidOfNat (st.tick + 1),
             ⟨oidOfNat st.tick, strLit ("user"), pyStrip text, atts.getD [],
               some (.dt (st.tick + 1))⟩),
            (oidOfNat (st.tick + 2),
             ⟨oidOfNat st.tick, strLit ("assistant"),
               generate_assistant_reply (pyStrip text), [],
               some (.dt (st.tick + 2))⟩)],
         attachments := st.attachments,
         tick := st.tick + 3 }) :=
  chat_new_conv_eq st text atts h

/-- C2 witness: the theorem evaluated at `chat("hi")` on the empty store. -/
theorem c2_chat_new_conversation_witness :
    pyStrip (strLit ("hi")) ≠ [] ∧
    (chat emptyStore (strLit ("hi")) none none).2.conversations.length = 1 ∧
    (chat emptyStore (strLit ("hi")) none none).2.messages.length = 2 :=
  ⟨by decide, by
    rw [c2_chat_new_conversation emptyStore (strLit ("hi")) none (by decide)]
    rfl, by
    rw [c2_chat_new_conversation emptyStore (strLit ("hi")) none (by decide)]
    rfl⟩

/-- C3 counterexample: uploading with the empty filename `""` and downloading
the returned identifier yields the default filename `"download"`, not the
uploaded filename, so the round-trip law fails for that filename. -/
theorem c3_attachment_roundtrip_cex :
    ((download_attachment
        (upload_attachment emptyStore [1, 2, 3] (some []) (some (strLit ("text/plain")))
          none none).2 (oidOfNat 0)).toOption.map DlOut.filename) =
      some (strLit ("download")) ∧
    strLit ("download") ≠ ([] : List Nat) := by
  refine ⟨rfl, by decide⟩

/-- C3 (amended): for every byte payload and every non-empty filename and
non-empty content type, uploading into a store that does not already use the
fresh identifier and then downloading the returned identifier yields the
byte-identical payload, the same filename and the same content type; empty
or absent metadata is replaced by the defaults instead. -/
theorem c3_attachment_roundtrip (st : Store) (data fn ct : List Nat)
    (hd : ∀ x ∈ data, x < 256) (hfn : fn ≠ []) (hct : ct ≠ [])
    (hfresh : ∀ p ∈ st.attachments, p.1 ≠ oidOfNat st.tick) :
    (upload_attachment st data (some fn) (some ct) none none).1 =
      .ok ⟨oidOfNat st.tick, some fn, some ct, data.length,
        strLit ("/attachments/") ++ oidOfNat st.tick⟩ ∧
    download_attachment (upload_attachment st data (some fn) (some ct) none none).2
        (oidOfNat st.tick) = .ok ⟨data, fn, ct⟩ := by
  constructor
  · simp [upload_attachment, badOptId, insertAttachment]
  · rw [upload_then_download st data (some fn) (some ct) hd hfresh]
    simp [pyOrOpt, hfn, hct]

/-- C3 witness: the round trip evaluated on a concrete payload. -/
theorem c3_attachment_roundtrip_witness :
    (upload_attachment emptyStore [0, 255, 10] (some (strLit ("a.txt")))
        (some (strLit ("text/plain"))) none none).1 =
      .ok ⟨oidOfNat 0, some (strLit ("a.txt")), some (strLit ("text/plain")), 3,
        strLit ("/attachments/") ++ oidOfNat 0⟩ ∧
    download_attachment (upload_attachment emptyStore [0, 255, 10]
        (some (strLit ("a.txt"))) (some (strLit ("text/plain"))) none none).2
        (oidOfNat 0) =
      .ok ⟨[0, 255, 10], strLit ("a.txt"), strLit ("text/plain")⟩ :=
  c3_attachment_roundtrip emptyStore [0, 255, 10] (strLit ("a.txt"))
    (strLit ("text/plain")) (by decide) (by decide) (by decide) (by decide)

/-- C4: `list_conversations` returns the conversations in insertion order,
whatever their creation times: the sort key is always `""` because
`created_at` was dropped from the result dicts, so the stable reverse sort
is the identity. On two conversations created in sequence the earlier one
is returned first, contradicting most-recent-first. -/
theorem c4_list_conversations_insertion_order :
    (∀ st : Store, list_conversations st =
      st.conversations.map (fun p => (⟨p.1, p.2.title⟩ : ConvOut))) ∧
    list_conversations (create_conversation (create_conversation emptyStore
        (some (strLit ("first")))).2 (some (strLit ("second")))).2 =
      [⟨oidOfNat 0, strLit ("first")⟩, ⟨oidOfNat 1, strLit ("second")⟩] ∧
    (create_conversation (create_conversation emptyStore
        (some (strLit ("first")))).2 (some (strLit ("second")))).2.conversations.map
        (fun p => p.2.created_at) = [some (.dt 0), some (.dt 1)] := by
  refine ⟨?_, by decide, by decide⟩
  intro st
  exact sortBy_const _ (fun a b => rfl) _

/-- C5 counterexample: `chat` with a syntactically valid but nonexistent
conversation identifier persists two messages under it while no conversation
record exists, violating the referential invariant. -/
theorem c5_message_fk_invariant_cex :
    (chat emptyStore (strLit ("hey"))
        (some (strLit ("aaaaaaaaaaaaaaaaaaaaaaaa"))) none).2.conversations = [] ∧
    (chat emptyStore (strLit ("hey"))
        (some (strLit ("aaaaaaaaaaaaaaaaaaaaaaaa"))) none).2.messages.length = 2 ∧
    ∀ p ∈ (chat emptyStore (strLit ("hey"))
        (some (strLit ("aaaaaaaaaaaaaaaaaaaaaaaa"))) none).2.messages,
      p.2.conversation_id = strLit ("aaaaaaaaaaaaaaaaaaaaaaaa") := by
  decide

/-- C5 (amended): in every store state reachable by the manager's operations
in which `chat` is only ever called without a conversation identifier or
with the identifier of an existing conversation, every persisted message's
conversation identifier references an existing conversation. (`chat` itself
checks only syntax, so a valid nonexistent identifier breaks the invariant,
as the counterexample shows.) -/
theorem c5_message_fk_invariant (st : Store) (h : Reach st) : MsgInv st := by
  induction h with
  | init =>
    intro p hp
    simp [emptyStore] at hp
  | createConv st title h ih =>
    refine msgInv_extend st _ ?_ ?_ ih
    · intro p hp
      rw [create_conversation_messages] at hp
      exact Or.inl hp
    · intro q hq
      rw [create_conversation_convs]
      exact List.mem_append_left _ hq
  | chatNone st text atts h ih => exact msgInv_chat_none st text atts ih
  | chatExisting st text cid atts h hcid ih =>
    exact msgInv_chat_existing st text cid atts hcid ih
  | uploadStep st data fn ct cido mido h ih =>
    refine msgInv_extend st _ ?_ ?_ ih
    · intro p hp
      rw [(upload_preserves st data fn ct cido mido).1] at hp
      exact Or.inl hp
    · intro q hq
      rw [(upload_preserves st data fn ct cido mido).2]
      exact hq

/-- C5 witness: the invariant holds in the reachable state after one chat
turn on a fresh conversation. -/
theorem c5_message_fk_invariant_witness :
    MsgInv (chat emptyStore (strLit ("hi")) none none).2 :=
  c5_message_fk_invariant _ (Reach.chatNone emptyStore (strLit ("hi")) none Reach.init)

/-- C6: `list_messages` fails with ValidationError exactly on syntactically
invalid conversation identifiers; otherwise it returns a permutation of that
conversation's messages sorted ascending by the stored creation timestamp,
each timestamp rendered as ISO text or null when absent or unparsable; and
`N` chat turns on a valid conversation identifier add exactly `2N` messages
to that conversation. -/
theorem c6_list_messages_contract :
    (∀ (st : Store) (cid : List Nat), isValidOid cid = false →
      list_messages st cid = .error .validation) ∧
    (∀ (st : Store) (cid : List Nat), isValidOid cid = true →
      ∃ docs : List (List Nat × MsgRec),
        list_messages st cid = .ok (docs.map renderMessage) ∧
        docs.Perm (msgsOf st cid) ∧
        docs.Pairwise (fun a b => tsNum a.2.created_at ≤ tsNum b.2.created_at) ∧
        ∀ p ∈ docs, (renderMessage p).created_at = tsRender p.2.created_at) ∧
    (∀ (st : Store) (cid : List Nat) (texts : List (List Nat)),
      isValidOid cid = true → (∀ t ∈ texts, pyStrip t ≠ []) →
      (msgsOf (chatTurns st cid texts) cid).length =
        (msgsOf st cid).length + 2 * texts.length) := by
  refine ⟨?_, ?_, ?_⟩
  · intro st cid h
    simp [list_messages, h]
  · intro st cid h
    refine ⟨sortBy msgLe (msgsOf st cid), ?_, sortBy_perm _ _, ?_, fun p _ => rfl⟩
    · simp [list_messages, h]
    · exact (sortBy_pairwise msgLe msgLe_total msgLe_trans _).imp
        (fun hle => by simpa [msgLe] using hle)
  · intro st cid texts hv hts
    exact chatTurns_count texts st cid hv hts

/-- C7: `download_attachment` fails with ValidationError exactly on malformed
identifiers, with NotFoundError exactly on well-formed identifiers matching
no stored attachment, with CorruptDataError exactly when the first matching
attachment's stored payload does not base64-decode, and succeeds exactly
otherwise. -/
theorem c7_download_error_taxonomy : ∀ (st : Store) (aid : List Nat),
    (download_attachment st aid = .error .validation ↔ isValidOid aid = false) ∧
    (download_attachment st aid = .error .notFound ↔
      isValidOid aid = true ∧ st.attachments.filter (fun p => p.1 == aid) = []) ∧
    (download_attachment st aid = .error .corrupt ↔
      isValidOid aid = true ∧ ∃ a rest,
        st.attachments.filter (fun p => p.1 == aid) = a :: rest ∧
        b64decode a.2.data_base64 = none) ∧
    ((∃ o, download_attachment st aid = .ok o) ↔
      isValidOid aid = true ∧ ∃ a rest,
        st.attachments.filter (fun p => p.1 == aid) = a :: rest ∧
        ∃ raw, b64decode a.2.data_base64 = some raw) := by
  intro st aid
  by_cases hv : isValidOid aid = true
  · cases hfl : st.attachments.filter (fun p => p.1 == aid) with
    | nil =>
      refine ⟨?_, ?_, ?_, ?_⟩ <;> simp [download_attachment, hv, hfl]
    | cons a rest =>
      cases hdec : b64decode a.2.data_base64 with
      | none =>
        refine ⟨?_, ?_, ?_, ?_⟩ <;> simp [download_attachment, hv, hfl, hdec]
      | some raw =>
        refine ⟨?_, ?_, ?_, ?_⟩ <;> simp [download_attachment, hv, hfl, hdec]
  · have hv' : isValidOid aid = false := by simpa using hv
    refine ⟨?_, ?_, ?_, ?_⟩ <;> simp [download_attachment, hv']

/-- C8: for every input whose trimmed form is empty, `chat` fails with
ValidationError and leaves the store unchanged (nothing is persisted). -/
theorem c8_chat_empty_text (st : Store) (message : List Nat)
    (cid : Option (List Nat)) (atts : Option (List (List Nat)))
    (h : pyStrip message = []) :
    chat st message cid atts = (.error .validation, st) :=
  chat_empty_eq st message cid atts h

/-- C8 witness: `chat("   ")` on the empty store. -/
theorem c8_chat_empty_text_witness :
    chat emptyStore (strLit ("   ")) none none = (.error .validation, emptyStore) :=
  c8_chat_empty_text emptyStore (strLit ("   ")) none none (by decide)

/-- C9 counterexample: the supplied conversationId `""` is syntactically
malformed (`ObjectId("")` fails), yet `chat` does not fail: the empty string
is falsy, so a new conversation is created and two messages are persisted. -/
theorem c9_chat_malformed_cid_cex :
    isValidOid [] = false ∧
    Except.isOk (chat emptyStore (strLit ("hey")) (some []) none).1 = true ∧
    (chat emptyStore (strLit ("hey")) (some []) none).2.conversations.length = 1 ∧
    (chat emptyStore (strLit ("hey")) (some []) none).2.messages.length = 2 := by
  decide

/-- C9 (amended): for every non-empty text and every supplied non-empty
syntactically malformed conversationId, `chat` fails with ValidationError
before any side effect: the store is returned unchanged. (A supplied empty
string is falsy in Python and is treated as an absent identifier instead,
as the counterexample shows.) -/
theorem c9_chat_malformed_cid (st : Store) (text cid : List Nat)
    (atts : Option (List (List Nat))) (h1 : pyStrip text ≠ [])
    (h2 : cid ≠ []) (h3 : isValidOid cid = false) :
    chat st text (some cid) atts = (.error .validation, st) :=
  chat_invalid_eq st text cid atts h1 h2 h3

/-- C9 witness: a malformed non-empty identifier on a concrete store. -/
theorem c9_chat_malformed_cid_witness :
    chat emptyStore (strLit ("hey")) (some (strLit ("xyz"))) none =
      (.error .validation, emptyStore) :=
  c9_chat_malformed_cid emptyStore (strLit ("hey")) (strLit ("xyz")) none
    (by decide) (by decide) (by decide)

/-- C10: an uploaded attachment with absent or empty filename and content
type still downloads successfully, with the defaults `"download"` and
`"application/octet-stream"` substituted. -/
theorem c10_download_defaults (st : Store) (data : List Nat)
    (fn ct : Option (List Nat)) (hd : ∀ x ∈ data, x < 256)
    (hfn : fn = none ∨ fn = some []) (hct : ct = none ∨ ct = some [])
    (hfresh : ∀ p ∈ st.attachments, p.1 ≠ oidOfNat st.tick) :
    download_attachment (upload_attachment st data fn ct none none).2
        (oidOfNat st.tick) =
      .ok ⟨data, strLit ("download"), strLit ("application/octet-stream")⟩ := by
  rw [upload_then_download st data fn ct hd hfresh]
  rcases hfn with rfl | rfl <;> rcases hct with rfl | rfl <;> rfl

/-- C10 witness: an upload with no filename and no content type. -/
theorem c10_download_defaults_witness :
    download_attachment (upload_attachment emptyStore [7] none none none none).2
        (oidOfNat 0) =
      .ok ⟨[7], strLit ("download"), strLit ("application/octet-stream")⟩ :=
  c10_download_defaults emptyStore [7] none none (by decide) (Or.inl rfl)
    (Or.inl rfl) (by decide)
